import Mathlib

/-!
# Shallow embedding of the daily-stock-analysis dashboard core

The repository has two JavaScript variants of the same `StockDashboard`
class: `src/frontend/js/dashboard.js` (here unsuffixed definitions) and
`src/unnamed/part_000` (here suffixed `V0`).  This file embeds the
filter-and-aggregate pipeline (`applyFilters`, `renderStats`), the data
loader (`loadData`) and the sample fallback data of both variants.

Modelling conventions:
* JavaScript strings are `List Char`; `String.prototype.includes` is
  `jsIncludes`, `String.prototype.toLowerCase` is `lowerStr` (ASCII case
  mapping, matching `Char.toLower`).  An empty string is the only falsy
  string, so JS truthiness tests on strings become `isEmpty` tests.
* A possibly-absent object field is an `Option`.  JS arithmetic on
  `undefined` yields `NaN`; `NaN` is modelled as `none` and propagated
  by `addScore`.  The comparison `undefined >= 70` is `false` in JS.
* A thrown `TypeError` (reading `.toLowerCase` of `undefined`) makes the
  surrounding computation return `none` : `applyFiltersV0` yields
  `none` when the exception aborts the `Array.prototype.filter` pass.
* `Math.round x` is round-half-up on exact rationals, `⌊x + 1/2⌋`,
  which is Mathlib's `round`; this matches the ECMAScript spec of
  `Math.round` (ties resolved toward positive infinity).
-/

namespace StockDash

/-- `leadsWith s pat`: `pat` occurs at the start of `s`
(model of the initial-segment check underlying `String.prototype.includes`). -/
def leadsWith : List Char → List Char → Bool
  | _, [] => true
  | [], _ :: _ => false
  | c :: cs, d :: ds => c == d && leadsWith cs ds

/-- `jsIncludes s pat`: model of `s.includes(pat)` for JS strings —
`pat` occurs contiguously somewhere in `s`. -/
def jsIncludes : List Char → List Char → Bool
  | [], pat => leadsWith [] pat
  | c :: cs, pat => leadsWith (c :: cs) pat || jsIncludes cs pat

/-- Model of `String.prototype.toLowerCase` restricted to the ASCII range,
as in `Char.toLower` (`A`–`Z` map to `a`–`z`, all else unchanged). -/
def lowerStr (s : List Char) : List Char := s.map Char.toLower

/-- ASCII uppercase-letter test (`A` ≤ c ≤ `Z`). -/
def isUpperA (c : Char) : Bool := 65 ≤ c.toNat && c.toNat ≤ 90

/-- A stock record as consumed by the filter/aggregate core.  The two JS
variants read `company_name` (dashboard.js) resp. `name` (part_000) as
the display name; either may be absent.  Display-only fields
(`current_price`, `price_change`, `price_change_percent`, `catalyst`,
`analysis`, volumes) are never consulted by `applyFilters`/`renderStats`
and are omitted. -/
structure Stock where
  ticker : List Char
  name : Option (List Char) := none
  company_name : Option (List Char) := none
  region : List Char
  confidence_score : Option Int := none
  deriving Repr, DecidableEq

/-- The dashboard's filter state: `this.currentRegion` and `this.searchTerm`. -/
structure FilterState where
  region : List Char
  searchTerm : List Char
  deriving Repr, DecidableEq

/-- `regionMatch` of `applyFilters` (identical in both variants):
`this.currentRegion === "all" || stock.region === this.currentRegion`. -/
def regionMatch (f : FilterState) (s : Stock) : Bool :=
  f.region == "all".toList || s.region == f.region

/-- `searchMatch` of dashboard.js `applyFilters`:
`!this.searchTerm || stock.ticker.toLowerCase().includes(this.searchTerm) ||
 (stock.company_name && stock.company_name.toLowerCase().includes(this.searchTerm))`.
An absent or empty `company_name` is falsy, so the last disjunct is `false`. -/
def searchMatch (f : FilterState) (s : Stock) : Bool :=
  f.searchTerm.isEmpty ||
    jsIncludes (lowerStr s.ticker) f.searchTerm ||
    (match s.company_name with
     | none => false
     | some n => !n.isEmpty && jsIncludes (lowerStr n) f.searchTerm)

/-- The filter callback of dashboard.js: `regionMatch && searchMatch`. -/
def keepStock (f : FilterState) (s : Stock) : Bool :=
  regionMatch f s && searchMatch f s

/-- dashboard.js `applyFilters` core:
`this.filteredStocks = this.stocks.filter(stock => ...)`. -/
def applyFilters (f : FilterState) (stocks : List Stock) : List Stock :=
  stocks.filter (keepStock f)

/-- `searchMatch` of part_000 `applyFilters`:
`!this.searchTerm || stock.ticker.toLowerCase().includes(this.searchTerm) ||
 stock.name.toLowerCase().includes(this.searchTerm)`.
`stock.name` is read with no guard: if `name` is absent and the first two
disjuncts are false, `.toLowerCase` of `undefined` throws (`none`). -/
def searchMatchV0 (f : FilterState) (s : Stock) : Option Bool :=
  if f.searchTerm.isEmpty then some true
  else if jsIncludes (lowerStr s.ticker) f.searchTerm then some true
  else
    match s.name with
    | none => none
    | some n => some (jsIncludes (lowerStr n) f.searchTerm)

/-- The filter callback of part_000: both `const`s are computed, then
`regionMatch && searchMatch`; an exception in `searchMatch` propagates
even when `regionMatch` is false. -/
def keepStockV0 (f : FilterState) (s : Stock) : Option Bool :=
  (searchMatchV0 f s).map (fun sm => regionMatch f s && sm)

/-- part_000 `applyFilters` core.  `Array.prototype.filter` visits the
records in order; an exception from the callback aborts the whole pass,
modelled by `none`. -/
def applyFiltersV0 (f : FilterState) : List Stock → Option (List Stock)
  | [] => some []
  | s :: rest =>
    match keepStockV0 f s, applyFiltersV0 f rest with
    | some b, some r => some (if b then s :: r else r)
    | _, _ => none

/-- `s.confidence_score >= 70`: in JS, `undefined >= 70` is `false`, a
present score compares numerically. -/
def highConfPred (s : Stock) : Bool :=
  match s.confidence_score with
  | some c => decide (70 ≤ c)
  | none => false

/-- One step of `reduce((sum, s) => sum + s.confidence_score, 0)`:
adding `undefined` produces `NaN` (`none`), and `NaN` is absorbing. -/
def addScore (acc : Option Int) (sc : Option Int) : Option Int :=
  match acc, sc with
  | some a, some b => some (a + b)
  | _, _ => none

/-- `this.filteredStocks.reduce((sum, s) => sum + s.confidence_score, 0)`. -/
def sumScores (l : List Stock) : Option Int :=
  l.foldl (fun acc s => addScore acc s.confidence_score) (some 0)

/-- The three summary numbers written by `renderStats`;
`avgScore = none` models a `NaN` average. -/
structure Stats where
  totalStocks : Nat
  highConfidence : Nat
  avgScore : Option Int
  deriving Repr, DecidableEq

/-- `renderStats` of both variants (their stats code is identical):
`totalStocks = filteredStocks.length`,
`highConfidence = filteredStocks.filter(s => s.confidence_score >= 70).length`,
`avgScore = totalStocks > 0 ? Math.round(sum / totalStocks) : 0`. -/
def renderStats (filtered : List Stock) : Stats :=
  let total := filtered.length
  let high := (filtered.filter highConfPred).length
  let avg : Option Int :=
    if 0 < total then
      (sumScores filtered).map (fun s => round ((s : ℚ) / (total : ℚ)))
    else some 0
  ⟨total, high, avg⟩

/-- The single fallback record of dashboard.js `SAMPLE_DATA.stocks`
(it has a `name` field but no `company_name`). -/
def SAMPLE_stocks : List Stock :=
  [{ ticker := "AAPL".toList, name := some "Apple Inc.".toList,
     region := "US".toList, confidence_score := some 82 }]

/-- The four fallback records of part_000 `SAMPLE_DATA.stocks`. -/
def SAMPLE_stocksV0 : List Stock :=
  [{ ticker := "AAPL".toList, name := some "Apple Inc.".toList,
     region := "US".toList, confidence_score := some 82 },
   { ticker := "MSFT".toList, name := some "Microsoft Corporation".toList,
     region := "US".toList, confidence_score := some 76 },
   { ticker := "TSCO.L".toList, name := some "Tesco PLC".toList,
     region := "UK".toList, confidence_score := some 68 },
   { ticker := "AIR.PA".toList, name := some "Airbus SE".toList,
     region := "EU".toList, confidence_score := some 71 }]

/-- The parsed JSON body seen by dashboard.js `loadData`: an object whose
`stocks` field may be absent. -/
structure Payload where
  stocks : Option (List Stock)
  deriving Repr, DecidableEq

/-- Outcome of the `fetch` in dashboard.js: the promise rejects, the
response is not ok, `response.json()` rejects, or a payload is parsed. -/
inductive FetchResult where
  | netError
  | httpError
  | badJson
  | ok (payload : Payload)
  deriving Repr, DecidableEq

/-- dashboard.js `loadData`, as the record set it leaves in `this.stocks`:
an ok response with a present, non-empty `data.stocks` is kept; every
other outcome (including `data.stocks` absent or of length 0) throws into
the `catch` and substitutes `SAMPLE_DATA.stocks`. -/
def loadData : FetchResult → List Stock
  | .ok p =>
    match p.stocks with
    | some l => if 0 < l.length then l else SAMPLE_stocks
    | none => SAMPLE_stocks
  | _ => SAMPLE_stocks

/-- Outcome of the `fetch` in part_000: `response.json()` parses directly
into the stock array. -/
inductive FetchResultV0 where
  | netError
  | httpError
  | badJson
  | ok (stocks : List Stock)
  deriving Repr, DecidableEq

/-- part_000 `loadData`: an ok response is kept verbatim — there is no
emptiness check on the parsed array; all failure outcomes substitute
`SAMPLE_DATA.stocks`. -/
def loadDataV0 : FetchResultV0 → List Stock
  | .ok l => l
  | _ => SAMPLE_stocksV0

/-- The mutable dashboard fields touched by `applyFilters`
(`this.stocks`, `this.filteredStocks`, `this.currentRegion`,
`this.searchTerm`). -/
structure DashState where
  stocks : List Stock
  filteredStocks : List Stock
  currentRegion : List Char
  searchTerm : List Char
  deriving Repr, DecidableEq

/-- dashboard.js `applyFilters` as a state transformer: it reads
`this.stocks`, `this.currentRegion`, `this.searchTerm` and overwrites
only `this.filteredStocks`. -/
def applyFiltersState (st : DashState) : DashState :=
  { st with
    filteredStocks := applyFilters ⟨st.currentRegion, st.searchTerm⟩ st.stocks }

/-- Rounding to the nearest integer with ties to the nearest even
integer, written from the specification's words ("rounded to the nearest
integer with ties resolved to even (round-half-to-even)"), for
comparison with the code's rounding. -/
def roundHalfEven (q : ℚ) : Int :=
  if q - ⌊q⌋ < 1/2 then ⌊q⌋
  else if q - ⌊q⌋ = 1/2 then (if 2 ∣ ⌊q⌋ then ⌊q⌋ else ⌊q⌋ + 1)
  else ⌊q⌋ + 1

/-- Sum of confidence scores with a missing score treated as 0, written
from the specification's words ("missing `confidence_score` is treated
as 0 for aggregation purposes"), for comparison with the code's sum. -/
def sumScoresSpec (l : List Stock) : Int :=
  l.foldl (fun acc s => acc + (s.confidence_score.getD 0)) 0

/-- A record with only the fields the core consults (`name` and
`company_name` absent). -/
def mkStock (t r : String) (c : Option Int) : Stock :=
  { ticker := t.toList, region := r.toList, confidence_score := c }

/-- A record with a `name` field (part_000-style display name),
`company_name` absent — the shape of every record in both variants'
`SAMPLE_DATA`. -/
def mkNamed (t nm r : String) (c : Option Int) : Stock :=
  { ticker := t.toList, name := some nm.toList,
    region := r.toList, confidence_score := c }

/-- A record with a `company_name` field (dashboard.js-style display
name), `name` absent. -/
def mkCompany (t cn r : String) (c : Option Int) : Stock :=
  { ticker := t.toList, company_name := some cn.toList,
    region := r.toList, confidence_score := c }

/-! ## Helper lemmas -/

lemma leadsWith_mem :
    ∀ (s pat : List Char), leadsWith s pat = true → ∀ c ∈ pat, c ∈ s := by
  intro s
  induction s with
  | nil =>
    intro pat h c hc
    cases pat with
    | nil => cases hc
    | cons d ds => simp [leadsWith] at h
  | cons e es ih =>
    intro pat h c hc
    cases pat with
    | nil => cases hc
    | cons d ds =>
      simp only [leadsWith, Bool.and_eq_true, beq_iff_eq] at h
      rcases List.mem_cons.mp hc with hcd | hcds
      · exact List.mem_cons.mpr (Or.inl (hcd.trans h.1.symm))
      · exact List.mem_cons.mpr (Or.inr (ih ds h.2 c hcds))

lemma jsIncludes_mem :
    ∀ (s pat : List Char), jsIncludes s pat = true → ∀ c ∈ pat, c ∈ s := by
  intro s
  induction s with
  | nil =>
    intro pat h c hc
    exact leadsWith_mem [] pat h c hc
  | cons e es ih =>
    intro pat h c hc
    simp only [jsIncludes, Bool.or_eq_true] at h
    rcases h with h | h
    · exact leadsWith_mem (e :: es) pat h c hc
    · exact List.mem_cons.mpr (Or.inr (ih pat h c hc))

lemma jsIncludes_nil (pat : List Char) : jsIncludes [] pat = pat.isEmpty := by
  cases pat <;> rfl

lemma keepStock_identity (s : Stock) :
    keepStock ⟨"all".toList, []⟩ s = true := by
  simp [keepStock, regionMatch, searchMatch]

lemma applyFiltersV0_empty_term (f : FilterState) (hf : f.searchTerm = []) :
    ∀ l : List Stock, applyFiltersV0 f l = some (l.filter (fun s => regionMatch f s)) := by
  intro l
  induction l with
  | nil => rfl
  | cons s rest ih =>
    have hk : keepStockV0 f s = some (regionMatch f s) := by
      simp [keepStockV0, searchMatchV0, hf]
    simp only [applyFiltersV0, hk, ih, List.filter_cons]

lemma foldl_addScore_none (l : List Stock) :
    l.foldl (fun acc s => addScore acc s.confidence_score) none = none := by
  induction l with
  | nil => rfl
  | cons s rest ih =>
    have h : addScore none s.confidence_score = none := by
      cases s.confidence_score <;> rfl
    simp only [List.foldl_cons, h, ih]

lemma foldl_addScore_some (l : List Stock) :
    ∀ a : Int, (∀ s ∈ l, (s.confidence_score).isSome = true) →
      l.foldl (fun acc s => addScore acc s.confidence_score) (some a)
        = some (l.foldl (fun x s => x + (s.confidence_score.getD 0)) a) := by
  induction l with
  | nil => intro a _; rfl
  | cons s rest ih =>
    intro a h
    obtain ⟨c, hc⟩ := Option.isSome_iff_exists.mp (h s (List.mem_cons_self s rest))
    have hrest : ∀ t ∈ rest, (t.confidence_score).isSome = true :=
      fun t ht => h t (List.mem_cons_of_mem s ht)
    have h1 : addScore (some a) s.confidence_score = some (a + c) := by
      rw [hc]; rfl
    have h2 : a + (s.confidence_score.getD 0) = a + c := by
      rw [hc]; rfl
    calc List.foldl (fun acc s => addScore acc s.confidence_score) (some a) (s :: rest)
        = List.foldl (fun acc s => addScore acc s.confidence_score) (some (a + c)) rest := by
          rw [List.foldl_cons, h1]
      _ = some (List.foldl (fun x s => x + (s.confidence_score.getD 0)) (a + c) rest) :=
          ih (a + c) hrest
      _ = some (List.foldl (fun x s => x + (s.confidence_score.getD 0)) a (s :: rest)) := by
          rw [List.foldl_cons, h2]

lemma sumScores_eq_spec (l : List Stock)
    (h : ∀ s ∈ l, (s.confidence_score).isSome = true) :
    sumScores l = some (sumScoresSpec l) :=
  foldl_addScore_some l 0 h

lemma foldl_addScore_absorb (l : List Stock) :
    ∀ acc : Option Int, (∃ s ∈ l, s.confidence_score = none) →
      l.foldl (fun acc s => addScore acc s.confidence_score) acc = none := by
  induction l with
  | nil => intro acc h; obtain ⟨s, hs, _⟩ := h; cases hs
  | cons x rest ih =>
    intro acc h
    obtain ⟨s, hs, hnone⟩ := h
    rcases List.mem_cons.mp hs with hsx | hsrest
    · subst hsx
      have : addScore acc s.confidence_score = none := by
        rw [hnone]; cases acc <;> rfl
      simp only [List.foldl_cons, this, foldl_addScore_none]
    · rw [List.foldl_cons]
      exact ih _ ⟨s, hsrest, hnone⟩

lemma sumScores_none_of_mem {l : List Stock} {s : Stock}
    (hs : s ∈ l) (hnone : s.confidence_score = none) :
    sumScores l = none :=
  foldl_addScore_absorb l (some 0) ⟨s, hs, hnone⟩

lemma foldl_spec_bounds (l : List Stock) :
    ∀ a : Int, (∀ s ∈ l, ∃ c, s.confidence_score = some c ∧ 0 ≤ c ∧ c ≤ 100) →
      a ≤ l.foldl (fun x s => x + (s.confidence_score.getD 0)) a ∧
      l.foldl (fun x s => x + (s.confidence_score.getD 0)) a ≤ a + 100 * l.length := by
  induction l with
  | nil => intro a _; simp
  | cons s rest ih =>
    intro a h
    obtain ⟨c, hc, hc0, hc100⟩ := h s (List.mem_cons_self s rest)
    have hrest := fun t ht => h t (List.mem_cons_of_mem s ht)
    have := ih (a + c) hrest
    simp only [List.foldl_cons, hc, Option.getD_some, List.length_cons] at *
    constructor
    · omega
    · omega

lemma round_div_bounds (S : Int) (n : Nat) (hn : 0 < n)
    (h0 : 0 ≤ S) (h100 : S ≤ 100 * n) :
    0 ≤ round ((S : ℚ) / (n : ℚ)) ∧ round ((S : ℚ) / (n : ℚ)) ≤ 100 := by
  have hnq : (0 : ℚ) < (n : ℚ) := by exact_mod_cast hn
  have hq0 : (0 : ℚ) ≤ (S : ℚ) / (n : ℚ) := by positivity
  have hq100 : (S : ℚ) / (n : ℚ) ≤ 100 := by
    rw [div_le_iff₀ hnq]
    have : (S : ℚ) ≤ 100 * (n : ℚ) := by exact_mod_cast h100
    linarith
  constructor
  · rw [round_eq]
    exact Int.le_floor.mpr (by push_cast; linarith)
  · rw [round_eq]
    have : ⌊(S : ℚ) / (n : ℚ) + 1 / 2⌋ < 101 :=
      Int.floor_lt.mpr (by push_cast; linarith)
    omega

lemma renderStats_avg_pos (l : List Stock) (h : 0 < l.length) :
    (renderStats l).avgScore
      = (sumScores l).map (fun s => round ((s : ℚ) / (l.length : ℚ))) := by
  simp [renderStats, h]

/-! ## Claim theorems -/

/-- Claim C4: the empty record list (and any filter application yielding
an empty filtered list) produces `totalStocks = 0`,
`highConfidence = 0`, `avgScore = 0`; the guarded ternary never takes the
division branch, so no division by zero occurs. -/
theorem c4_empty_stats :
    renderStats [] = ⟨0, 0, some 0⟩ ∧
    ∀ (R : List Stock) (f : FilterState),
      applyFilters f R = [] → renderStats (applyFilters f R) = ⟨0, 0, some 0⟩ := by
  refine ⟨rfl, ?_⟩
  intro R f h
  rw [h]
  rfl

/-- Witness for C4: a non-empty record list whose every record is
filtered out still yields the all-zero statistics. -/
theorem c4_empty_stats_witness :
    renderStats (applyFilters ⟨"UK".toList, []⟩ [mkStock "AAPL" "US" (some 82)])
      = ⟨0, 0, some 0⟩ :=
  c4_empty_stats.2 [mkStock "AAPL" "US" (some 82)] ⟨"UK".toList, []⟩ (by decide)

/-- Claim C6: with `region = "all"` and empty `searchTerm`, both
variants' filters return the input list unchanged — same records, same
order, same count. -/
theorem c6_identity_filter :
    ∀ R : List Stock,
      applyFilters ⟨"all".toList, []⟩ R = R ∧
      applyFiltersV0 ⟨"all".toList, []⟩ R = some R := by
  intro R
  constructor
  · exact List.filter_eq_self.mpr (fun s _ => keepStock_identity s)
  · rw [applyFiltersV0_empty_term _ rfl R]
    have h : R.filter (fun s => regionMatch ⟨"all".toList, []⟩ s) = R :=
      List.filter_eq_self.mpr (fun s _ => by simp [regionMatch])
    rw [h]

/-- Claim C7: region matching is case-sensitive exact comparison — with
records whose regions are drawn from `{"US","UK","EU"}`, the filter
`region = "us"` (lowercase, empty search term) keeps zero records in
both variants. -/
theorem c7_region_case_sensitive :
    ∀ R : List Stock,
      (∀ s ∈ R, s.region = "US".toList ∨ s.region = "UK".toList ∨ s.region = "EU".toList) →
      applyFilters ⟨"us".toList, []⟩ R = [] ∧
      applyFiltersV0 ⟨"us".toList, []⟩ R = some [] := by
  intro R h
  have hreg : ∀ s ∈ R, regionMatch ⟨"us".toList, []⟩ s = false := by
    intro s hs
    rcases h s hs with h1 | h1 | h1 <;>
      · unfold regionMatch
        rw [h1]
        decide
  have hkeep : ∀ s ∈ R, keepStock ⟨"us".toList, []⟩ s = false := by
    intro s hs
    unfold keepStock
    rw [hreg s hs]
    rfl
  constructor
  · apply List.filter_eq_nil_iff.mpr
    intro s hs
    rw [hkeep s hs]
    simp
  · rw [applyFiltersV0_empty_term _ rfl R,
      List.filter_eq_nil_iff.mpr
        (fun s hs => by
          show ¬ regionMatch ⟨"us".toList, []⟩ s = true
          rw [hreg s hs]
          simp)]

/-- Witness for C7: on the three sample regions, the lowercase filter
value keeps nothing. -/
theorem c7_region_case_sensitive_witness :
    applyFilters ⟨"us".toList, []⟩
      [mkStock "AAPL" "US" (some 82), mkStock "TSCO.L" "UK" (some 68),
       mkStock "AIR.PA" "EU" (some 71)] = [] ∧
    applyFiltersV0 ⟨"us".toList, []⟩
      [mkStock "AAPL" "US" (some 82), mkStock "TSCO.L" "UK" (some 68),
       mkStock "AIR.PA" "EU" (some 71)] = some [] :=
  c7_region_case_sensitive _ (by decide)

/-- Claim C9: `applyFilters` is a pure projection of
`(stocks, currentRegion, searchTerm)`: it leaves the source record list
(and the filter state) untouched, is idempotent, yields identical
filtered lists and statistics for identical inputs, and its output is a
sublist (subsequence) of the source list. -/
theorem c9_pure_projection (st st₂ : DashState)
    (h1 : st₂.stocks = st.stocks)
    (h2 : st₂.currentRegion = st.currentRegion)
    (h3 : st₂.searchTerm = st.searchTerm) :
    (applyFiltersState st).stocks = st.stocks ∧
    (applyFiltersState st).currentRegion = st.currentRegion ∧
    (applyFiltersState st).searchTerm = st.searchTerm ∧
    applyFiltersState (applyFiltersState st) = applyFiltersState st ∧
    (applyFiltersState st₂).filteredStocks = (applyFiltersState st).filteredStocks ∧
    renderStats (applyFiltersState st₂).filteredStocks
      = renderStats (applyFiltersState st).filteredStocks ∧
    List.Sublist (applyFiltersState st).filteredStocks st.stocks := by
  refine ⟨rfl, rfl, rfl, rfl, ?_, ?_, ?_⟩
  · simp [applyFiltersState, h1, h2, h3]
  · simp [applyFiltersState, h1, h2, h3]
  · exact List.filter_sublist st.stocks

/-- Witness for C9: two concrete states agreeing on the inputs (but not
on the stale `filteredStocks` field) produce the same projection. -/
theorem c9_pure_projection_witness :
    (applyFiltersState ⟨[mkStock "AAPL" "US" (some 82)], [], "all".toList, []⟩).stocks
      = [mkStock "AAPL" "US" (some 82)] ∧
    (applyFiltersState ⟨[mkStock "AAPL" "US" (some 82)], [], "all".toList, []⟩).currentRegion
      = "all".toList ∧
    (applyFiltersState ⟨[mkStock "AAPL" "US" (some 82)], [], "all".toList, []⟩).searchTerm
      = [] ∧
    applyFiltersState (applyFiltersState
        ⟨[mkStock "AAPL" "US" (some 82)], [], "all".toList, []⟩)
      = applyFiltersState ⟨[mkStock "AAPL" "US" (some 82)], [], "all".toList, []⟩ ∧
    (applyFiltersState ⟨[mkStock "AAPL" "US" (some 82)],
        [mkStock "MSFT" "US" (some 76)], "all".toList, []⟩).filteredStocks
      = (applyFiltersState
          ⟨[mkStock "AAPL" "US" (some 82)], [], "all".toList, []⟩).filteredStocks ∧
    renderStats (applyFiltersState ⟨[mkStock "AAPL" "US" (some 82)],
        [mkStock "MSFT" "US" (some 76)], "all".toList, []⟩).filteredStocks
      = renderStats (applyFiltersState
          ⟨[mkStock "AAPL" "US" (some 82)], [], "all".toList, []⟩).filteredStocks ∧
    List.Sublist (applyFiltersState
        ⟨[mkStock "AAPL" "US" (some 82)], [], "all".toList, []⟩).filteredStocks
      [mkStock "AAPL" "US" (some 82)] :=
  c9_pure_projection
    ⟨[mkStock "AAPL" "US" (some 82)], [], "all".toList, []⟩
    ⟨[mkStock "AAPL" "US" (some 82)], [mkStock "MSFT" "US" (some 76)], "all".toList, []⟩
    rfl rfl rfl

/-- Counterexample for C1: in dashboard.js the search clause reads
`company_name`, not `name`, so a record whose `name` lowercases to a
superstring of the term is nevertheless dropped; and in part_000 a
record with no `name` field raises a TypeError (modelled `none`) instead
of falling back to the ticker. -/
theorem c1_counterexample :
    jsIncludes (lowerStr "Apple Inc.".toList) "apple".toList = true ∧
    searchMatch ⟨"all".toList, "apple".toList⟩
      (mkNamed "AAPL" "Apple Inc." "US" (some 82)) = false ∧
    applyFilters ⟨"all".toList, "apple".toList⟩
      [mkNamed "AAPL" "Apple Inc." "US" (some 82)] = [] ∧
    searchMatchV0 ⟨"all".toList, "xyz".toList⟩ (mkStock "ZZZZ" "US" (some 50)) = none ∧
    applyFiltersV0 ⟨"all".toList, "xyz".toList⟩ [mkStock "ZZZZ" "US" (some 50)] = none := by
  decide

/-- Claim C1 (amended): with a non-empty search term, dashboard.js keeps
a record by search iff the term occurs in the lowercased `ticker` or in
the lowercased `company_name` (when present); a record without
`company_name` is decided by the ticker alone, with no error.  In
part_000 the searched name field is `name`: when present the analogous
disjunction holds, but a record without `name` raises a TypeError
whenever the term is non-empty and not contained in the lowercased
ticker. -/
theorem c1_search_semantics :
    (∀ (f : FilterState) (s : Stock), f.searchTerm.isEmpty = false →
      (searchMatch f s = true ↔
        jsIncludes (lowerStr s.ticker) f.searchTerm = true ∨
        ∃ n, s.company_name = some n ∧ jsIncludes (lowerStr n) f.searchTerm = true)) ∧
    (∀ (f : FilterState) (s : Stock), s.company_name = none →
      searchMatch f s
        = (f.searchTerm.isEmpty || jsIncludes (lowerStr s.ticker) f.searchTerm)) ∧
    (∀ (f : FilterState) (s : Stock) (n : List Char), s.name = some n →
      searchMatchV0 f s
        = some (f.searchTerm.isEmpty || jsIncludes (lowerStr s.ticker) f.searchTerm
            || jsIncludes (lowerStr n) f.searchTerm)) ∧
    (∀ (f : FilterState) (s : Stock), s.name = none →
      f.searchTerm.isEmpty = false →
      jsIncludes (lowerStr s.ticker) f.searchTerm = false →
      searchMatchV0 f s = none) := by
  refine ⟨?_, ?_, ?_, ?_⟩
  · intro f s hne
    cases hcn : s.company_name with
    | none => simp [searchMatch, hne, hcn]
    | some n =>
      cases n with
      | nil =>
        have hpat : jsIncludes (lowerStr []) f.searchTerm = false := by
          rw [show lowerStr [] = [] from rfl, jsIncludes_nil, hne]
        simp [searchMatch, hne, hcn, hpat]
      | cons c cs => simp [searchMatch, hne, hcn]
  · intro f s hcn
    simp [searchMatch, hcn]
  · intro f s n hn
    simp only [searchMatchV0, hn]
    cases he : f.searchTerm.isEmpty <;>
      cases ht : jsIncludes (lowerStr s.ticker) f.searchTerm <;>
        simp [he, ht]
  · intro f s hn hne ht
    simp [searchMatchV0, hn, hne, ht]

/-- Witness for C1: on concrete records, the dashboard.js clause matches
`"aap"` against ticker `AAPL`; a record with no `company_name` and no
`name` is decided by its ticker in dashboard.js but errors in part_000
when the term misses the ticker. -/
theorem c1_search_semantics_witness :
    searchMatch ⟨"all".toList, "aap".toList⟩
      (mkCompany "AAPL" "Apple Inc." "US" (some 82)) = true ∧
    searchMatch ⟨"all".toList, "xyz".toList⟩ (mkStock "MSFT" "US" (some 76))
      = (("xyz".toList).isEmpty || jsIncludes (lowerStr "MSFT".toList) "xyz".toList) ∧
    searchMatchV0 ⟨"all".toList, "tsco".toList⟩
      (mkNamed "TSCO.L" "Tesco PLC" "UK" (some 68))
      = some (("tsco".toList).isEmpty
          || jsIncludes (lowerStr "TSCO.L".toList) "tsco".toList
          || jsIncludes (lowerStr "Tesco PLC".toList) "tsco".toList) ∧
    searchMatchV0 ⟨"all".toList, "xyz".toList⟩ (mkStock "MSFT" "US" (some 76)) = none :=
  ⟨(c1_search_semantics.1 ⟨"all".toList, "aap".toList⟩
      (mkCompany "AAPL" "Apple Inc." "US" (some 82)) (by decide)).mpr
        (Or.inl (by decide)),
   c1_search_semantics.2.1 ⟨"all".toList, "xyz".toList⟩
      (mkStock "MSFT" "US" (some 76)) rfl,
   c1_search_semantics.2.2.1 ⟨"all".toList, "tsco".toList⟩
      (mkNamed "TSCO.L" "Tesco PLC" "UK" (some 68)) ("Tesco PLC".toList) rfl,
   c1_search_semantics.2.2.2 ⟨"all".toList, "xyz".toList⟩
      (mkStock "MSFT" "US" (some 76)) rfl (by decide) (by decide)⟩

/-- Claim C10: `applyFilters` compares the stored term verbatim against
lowercased fields, so a term containing an uppercase ASCII letter
matches no record whose lowercased ticker and display name contain no
uppercase letters — in dashboard.js the clause is `false`, in part_000
it is `false` or a TypeError.  Case-insensitivity therefore relies on
the input handler lowercasing the term before storing it. -/
theorem c10_verbatim_term (f : FilterState) (s : Stock) (c : Char)
    (hc : c ∈ f.searchTerm) (hupper : isUpperA c = true)
    (ht : ∀ d ∈ lowerStr s.ticker, isUpperA d = false)
    (hcn : ∀ d ∈ lowerStr (s.company_name.getD []), isUpperA d = false)
    (hnm : ∀ d ∈ lowerStr (s.name.getD []), isUpperA d = false) :
    searchMatch f s = false ∧
    (searchMatchV0 f s = none ∨ searchMatchV0 f s = some false) := by
  have hne : f.searchTerm.isEmpty = false := by
    cases htm : f.searchTerm with
    | nil => rw [htm] at hc; cases hc
    | cons a as => rfl
  have hticker : jsIncludes (lowerStr s.ticker) f.searchTerm = false := by
    cases hj : jsIncludes (lowerStr s.ticker) f.searchTerm with
    | false => rfl
    | true =>
      have := ht c (jsIncludes_mem _ _ hj c hc)
      rw [hupper] at this
      cases this
  constructor
  · simp only [searchMatch, hne, hticker, Bool.false_or, Bool.or_false]
    cases hcase : s.company_name with
    | none => rfl
    | some n =>
      have hjn : jsIncludes (lowerStr n) f.searchTerm = false := by
        cases hj : jsIncludes (lowerStr n) f.searchTerm with
        | false => rfl
        | true =>
          rw [hcase] at hcn
          have := hcn c (jsIncludes_mem _ _ hj c hc)
          rw [hupper] at this
          cases this
      simp [hjn]
  · cases hcase : s.name with
    | none =>
      left
      simp [searchMatchV0, hne, hticker, hcase]
    | some n =>
      right
      have hjn : jsIncludes (lowerStr n) f.searchTerm = false := by
        cases hj : jsIncludes (lowerStr n) f.searchTerm with
        | false => rfl
        | true =>
          rw [hcase] at hnm
          have := hnm c (jsIncludes_mem _ _ hj c hc)
          rw [hupper] at this
          cases this
      simp [searchMatchV0, hne, hticker, hcase, hjn]

/-- Witness for C10: at the boundary of `applyFilters`, the uppercase
term `"AAP"` does not match ticker `"AAPL"`. -/
theorem c10_verbatim_term_witness :
    searchMatch ⟨"all".toList, "AAP".toList⟩
      (mkNamed "AAPL" "Apple Inc." "US" (some 82)) = false ∧
    (searchMatchV0 ⟨"all".toList, "AAP".toList⟩
        (mkNamed "AAPL" "Apple Inc." "US" (some 82)) = none ∨
     searchMatchV0 ⟨"all".toList, "AAP".toList⟩
        (mkNamed "AAPL" "Apple Inc." "US" (some 82)) = some false) :=
  c10_verbatim_term ⟨"all".toList, "AAP".toList⟩
    (mkNamed "AAPL" "Apple Inc." "US" (some 82)) 'A'
    (by decide) (by decide) (by decide) (by decide) (by decide)

/-- Counterexample for C2: a record with a missing `confidence_score`
does not contribute 0 to the sum — `sum + undefined` is `NaN` (`none`),
so `averageScore` is `NaN`, not an integer, even though treating the
missing score as 0 (the specification's words, `sumScoresSpec`) would
give the integer sum 82. -/
theorem c2_counterexample :
    sumScores [mkStock "AAPL" "US" (some 82), mkStock "ZZZZ" "US" none] = none ∧
    (renderStats [mkStock "AAPL" "US" (some 82), mkStock "ZZZZ" "US" none]).avgScore
      = none ∧
    sumScoresSpec [mkStock "AAPL" "US" (some 82), mkStock "ZZZZ" "US" none] = 82 ∧
    (renderStats [mkStock "AAPL" "US" (some 82), mkStock "ZZZZ" "US" none]).highConfidence
      = 1 := by
  refine ⟨by decide, ?_, by decide, by decide⟩
  rw [renderStats_avg_pos _ (by decide), show sumScores
    [mkStock "AAPL" "US" (some 82), mkStock "ZZZZ" "US" none] = none by decide]
  rfl

/-- Claim C2 (amended): a record with a missing `confidence_score` is
never counted in `highConfidence` (`undefined >= 70` is `false`), but it
poisons the sum used for `avgScore`: any filtered list containing such a
record yields `sumScores = none` (`NaN`) and hence `avgScore = NaN`
rather than an integer. -/
theorem c2_missing_score (l : List Stock) (s : Stock)
    (hs : s ∈ l) (hnone : s.confidence_score = none) :
    sumScores l = none ∧
    (renderStats l).avgScore = none ∧
    highConfPred s = false := by
  have hsum := sumScores_none_of_mem hs hnone
  have hlen : 0 < l.length := List.length_pos.mpr (List.ne_nil_of_mem hs)
  refine ⟨hsum, ?_, ?_⟩
  · rw [renderStats_avg_pos l hlen, hsum]
    rfl
  · simp [highConfPred, hnone]

/-- Witness for C2: a two-record list with one missing score. -/
theorem c2_missing_score_witness :
    sumScores [mkStock "AAPL" "US" (some 82), mkStock "ZZZZ" "US" none] = none ∧
    (renderStats [mkStock "AAPL" "US" (some 82), mkStock "ZZZZ" "US" none]).avgScore
      = none ∧
    highConfPred (mkStock "ZZZZ" "US" none) = false :=
  c2_missing_score [mkStock "AAPL" "US" (some 82), mkStock "ZZZZ" "US" none]
    (mkStock "ZZZZ" "US" none) (by decide) rfl

/-- Counterexample for C3: the code's average of the scores `{2, 3}` is
`Math.round(2.5) = 3` (`Math.round` rounds ties toward positive
infinity), while rounding half-to-even — the rule the claim names —
gives 2. -/
theorem c3_counterexample :
    (renderStats [mkStock "AA" "US" (some 2), mkStock "BB" "US" (some 3)]).avgScore
      = some 3 ∧
    sumScoresSpec [mkStock "AA" "US" (some 2), mkStock "BB" "US" (some 3)] = 5 ∧
    ([mkStock "AA" "US" (some 2), mkStock "BB" "US" (some 3)] : List Stock).length = 2 ∧
    roundHalfEven ((5 : ℚ) / 2) = 2 := by
  refine ⟨?_, by decide, by decide, ?_⟩
  · rw [renderStats_avg_pos _ (by decide),
      sumScores_eq_spec _ (by decide),
      show sumScoresSpec [mkStock "AA" "US" (some 2), mkStock "BB" "US" (some 3)] = 5
        by decide]
    show some (round (((5 : ℤ) : ℚ) / ((2 : ℕ) : ℚ))) = some 3
    norm_num [round_eq]
  · have hfl : ⌊(5 : ℚ) / 2⌋ = 2 := by norm_num
    rw [roundHalfEven, hfl]
    norm_num

/-- Claim C3 (amended): for a non-empty filtered list whose scores are
all present, `avgScore` is the sum divided by the count rounded to the
nearest integer with ties resolved toward positive infinity
(round-half-up, the ECMAScript `Math.round` rule — not half-to-even):
the rounded value is within 1/2 of the exact quotient, and on an exact
half it is the floor plus one.  For the empty list the average is 0. -/
theorem c3_round_half_up :
    (renderStats []).avgScore = some 0 ∧
    ∀ l : List Stock, 0 < l.length →
      (∀ s ∈ l, (s.confidence_score).isSome = true) →
      (renderStats l).avgScore
          = some (round ((sumScoresSpec l : ℚ) / (l.length : ℚ))) ∧
      |((sumScoresSpec l : ℚ) / (l.length : ℚ))
          - (round ((sumScoresSpec l : ℚ) / (l.length : ℚ)) : ℚ)| ≤ 1 / 2 ∧
      (((sumScoresSpec l : ℚ) / (l.length : ℚ))
          - (⌊(sumScoresSpec l : ℚ) / (l.length : ℚ)⌋ : ℚ) = 1 / 2 →
        round ((sumScoresSpec l : ℚ) / (l.length : ℚ))
          = ⌊(sumScoresSpec l : ℚ) / (l.length : ℚ)⌋ + 1) := by
  refine ⟨rfl, ?_⟩
  intro l hlen hsome
  set q : ℚ := (sumScoresSpec l : ℚ) / (l.length : ℚ) with hq
  refine ⟨?_, ?_, ?_⟩
  · rw [renderStats_avg_pos l hlen, sumScores_eq_spec l hsome]
    rfl
  · calc |q - (round q : ℚ)| = |(round q : ℚ) - q| := abs_sub_comm _ _
      _ = |q - (round q : ℚ)| := abs_sub_comm _ _
      _ ≤ 1 / 2 := abs_sub_round q
  · intro htie
    have hhalf : q + 1 / 2 = ((⌊q⌋ + 1 : ℤ) : ℚ) := by
      push_cast
      linarith
    rw [round_eq, hhalf, Int.floor_intCast]

/-- Witness for C3: the tie case `{2, 3}` — the average is 3, within a
half of 5/2. -/
theorem c3_round_half_up_witness :
    (renderStats [mkStock "AA" "US" (some 2), mkStock "BB" "US" (some 3)]).avgScore
      = some 3 ∧
    |((sumScoresSpec [mkStock "AA" "US" (some 2), mkStock "BB" "US" (some 3)] : ℚ)
        / (([mkStock "AA" "US" (some 2), mkStock "BB" "US" (some 3)] : List Stock).length : ℚ))
      - ((3 : ℤ) : ℚ)| ≤ 1 / 2 := by
  obtain ⟨h1, h2, h3⟩ := c3_round_half_up.2
    [mkStock "AA" "US" (some 2), mkStock "BB" "US" (some 3)] (by decide) (by decide)
  have hs : sumScoresSpec [mkStock "AA" "US" (some 2), mkStock "BB" "US" (some 3)] = 5 := by
    decide
  have hround : round ((sumScoresSpec
      [mkStock "AA" "US" (some 2), mkStock "BB" "US" (some 3)] : ℚ)
        / (([mkStock "AA" "US" (some 2), mkStock "BB" "US" (some 3)] : List Stock).length : ℚ))
      = 3 := by
    rw [hs]
    show round (((5 : ℤ) : ℚ) / ((2 : ℕ) : ℚ)) = 3
    norm_num [round_eq]
  constructor
  · rw [h1, hround]
  · rw [hround] at h2
    exact h2

/-- Counterexample for C8: in the list `{score 50, score 1000}` some
record has a score inside [0, 100], yet `avgScore = 525` lies outside
[0, 100] — the in-range premise must hold of every record, not just
some record. -/
theorem c8_counterexample :
    (mkStock "AA" "US" (some 50)) ∈
      [mkStock "AA" "US" (some 50), mkStock "BB" "US" (some 1000)] ∧
    (mkStock "AA" "US" (some 50)).confidence_score = some 50 ∧
    (0 : ℤ) ≤ 50 ∧ (50 : ℤ) ≤ 100 ∧
    (renderStats [mkStock "AA" "US" (some 50), mkStock "BB" "US" (some 1000)]).avgScore
      = some 525 ∧
    (100 : ℤ) < 525 := by
  refine ⟨by decide, by decide, by decide, by decide, ?_, by decide⟩
  rw [renderStats_avg_pos _ (by decide),
    sumScores_eq_spec _ (by decide),
    show sumScoresSpec [mkStock "AA" "US" (some 50), mkStock "BB" "US" (some 1000)] = 1050
      by decide]
  show some (round (((1050 : ℤ) : ℚ) / ((2 : ℕ) : ℚ))) = some 525
  norm_num [round_eq]

/-- Claim C8 (amended): `highConfidence ≤ totalStocks` for every
filtered list; and whenever every record of the filtered list has a
`confidence_score` in [0, 100], `avgScore` is an integer in [0, 100]. -/
theorem c8_counts_and_bounds :
    (∀ l : List Stock, (renderStats l).highConfidence ≤ (renderStats l).totalStocks) ∧
    ∀ l : List Stock,
      (∀ s ∈ l, ∃ c, s.confidence_score = some c ∧ 0 ≤ c ∧ c ≤ 100) →
      (renderStats l).avgScore
          = some (round ((sumScoresSpec l : ℚ) / (l.length : ℚ))) ∧
      0 ≤ round ((sumScoresSpec l : ℚ) / (l.length : ℚ)) ∧
      round ((sumScoresSpec l : ℚ) / (l.length : ℚ)) ≤ 100 := by
  constructor
  · intro l
    exact List.length_filter_le _ _
  · intro l hall
    cases l with
    | nil =>
      have h : round ((sumScoresSpec ([] : List Stock) : ℚ)
          / (([] : List Stock).length : ℚ)) = 0 := by
        show round (((0 : ℤ) : ℚ) / ((0 : ℕ) : ℚ)) = 0
        norm_num
      exact ⟨by rw [h]; rfl, by rw [h], by rw [h]; decide⟩
    | cons x xs =>
      have hlen : 0 < (x :: xs).length := by simp
      have hsome : ∀ s ∈ x :: xs, (s.confidence_score).isSome = true := by
        intro s hs
        obtain ⟨c, hc, -, -⟩ := hall s hs
        rw [hc]
        rfl
      have hbounds := foldl_spec_bounds (x :: xs) 0 hall
      have h0 : 0 ≤ sumScoresSpec (x :: xs) := hbounds.1
      have h100 : sumScoresSpec (x :: xs) ≤ 100 * ((x :: xs).length : ℤ) := by
        have h2 := hbounds.2
        simp only [sumScoresSpec]
        omega
      obtain ⟨hge, hle⟩ := round_div_bounds (sumScoresSpec (x :: xs)) (x :: xs).length
        hlen h0 h100
      refine ⟨?_, hge, hle⟩
      rw [renderStats_avg_pos _ hlen, sumScores_eq_spec _ hsome]
      rfl

/-- Witness for C8: a singleton list with score 82 — the average 82 is
inside [0, 100]. -/
theorem c8_counts_and_bounds_witness :
    (renderStats [mkStock "AAPL" "US" (some 82)]).avgScore
      = some (round ((sumScoresSpec [mkStock "AAPL" "US" (some 82)] : ℚ)
          / (([mkStock "AAPL" "US" (some 82)] : List Stock).length : ℚ))) ∧
    0 ≤ round ((sumScoresSpec [mkStock "AAPL" "US" (some 82)] : ℚ)
        / (([mkStock "AAPL" "US" (some 82)] : List Stock).length : ℚ)) ∧
    round ((sumScoresSpec [mkStock "AAPL" "US" (some 82)] : ℚ)
        / (([mkStock "AAPL" "US" (some 82)] : List Stock).length : ℚ)) ≤ 100 :=
  c8_counts_and_bounds.2 [mkStock "AAPL" "US" (some 82)]
    (fun s hs => by
      rw [List.mem_singleton] at hs
      subst hs
      exact ⟨82, rfl, by decide, by decide⟩)

/-- Counterexample for C5: the part_000 loader keeps an ok response whose
parsed stock list is empty — no fallback is substituted even though the
non-empty fallback set exists, so the record set handed on is empty. -/
theorem c5_counterexample :
    loadDataV0 (FetchResultV0.ok []) = [] ∧
    (loadDataV0 (FetchResultV0.ok [])).length = 0 ∧
    0 < SAMPLE_stocksV0.length := by
  refine ⟨rfl, rfl, by decide⟩

/-- Claim C5 (amended): the dashboard.js loader substitutes the fixed
non-empty fallback sample set on every failure outcome — network error,
non-ok response, malformed body, missing `stocks` field, or an empty
stock list — so its record set is never empty.  The part_000 loader
substitutes its fallback only on network error, non-ok response and
malformed body; an ok response is kept verbatim, even when the parsed
list is empty. -/
theorem c5_loader_fallback :
    (∀ r : FetchResult, 0 < (loadData r).length) ∧
    loadData FetchResult.netError = SAMPLE_stocks ∧
    loadData FetchResult.httpError = SAMPLE_stocks ∧
    loadData FetchResult.badJson = SAMPLE_stocks ∧
    loadData (FetchResult.ok ⟨none⟩) = SAMPLE_stocks ∧
    loadData (FetchResult.ok ⟨some []⟩) = SAMPLE_stocks ∧
    0 < SAMPLE_stocks.length ∧
    (∀ l : List Stock, loadDataV0 (FetchResultV0.ok l) = l) ∧
    loadDataV0 FetchResultV0.netError = SAMPLE_stocksV0 ∧
    loadDataV0 FetchResultV0.httpError = SAMPLE_stocksV0 ∧
    loadDataV0 FetchResultV0.badJson = SAMPLE_stocksV0 ∧
    0 < SAMPLE_stocksV0.length := by
  refine ⟨?_, rfl, rfl, rfl, rfl, rfl, by decide, fun l => rfl, rfl, rfl, rfl, by decide⟩
  intro r
  match r with
  | .netError => decide
  | .httpError => decide
  | .badJson => decide
  | .ok ⟨none⟩ => decide
  | .ok ⟨some []⟩ => decide
  | .ok ⟨some (a :: as)⟩ => simp [loadData]

end StockDash
